import Mathlib

/-!
Verification of met-csv-to-sqlite.py against its specification.

The program imports a CSV file of timestamped GPS records into a SQLite
table.  We shallowly embed each function of the source file:

* `convert_time_to_epoch`, rendering and the civil-calendar arithmetic model
  Python's `datetime.strptime` / `datetime.timestamp` /
  `datetime.fromtimestamp` / `strftime` on the fixed format
  `%d-%b-%Y %H:%M:%S`.  The local time zone of the running process is
  modelled as a fixed UTC offset `off` (seconds east of UTC); daylight-saving
  transitions are outside the model.
* `process_csv_data` is embedded as a fold over records, with Python
  exceptions made explicit in an `Except PyErr` result: `ValueError` from
  `float` is caught by the per-row handler, while `TypeError` (from
  `strptime(None, ...)`), `AttributeError` (from `None.strip()`) and
  `KeyError` (from a missing dict key) propagate and abort the run, exactly
  as in the source.
* the SQLite table is a list of rows; `insert_data_to_database` models the
  delete-then-insert transaction of the source, with the context manager
  rolling back on any error.  Exogenous storage failures (disk errors and
  the like) are modelled by a fault oracle `fault : Nat -> Bool` indexed by
  statement position: 0 is the DELETE, 1..n the INSERTs, n+1 the COMMIT.

Numeric CSV fields are modelled as exact rationals parsed from decimal
literals (optionally signed, with fraction and exponent).  IEEE-754
rounding, `inf`/`nan` spellings and underscore digit separators are outside
the model; no claim depends on them.
-/

/-! ## Civil calendar arithmetic (models Python `datetime`)  -/

/-- Date-time record with the six fields `strptime` produces for the format
`%d-%b-%Y %H:%M:%S`. -/
structure DateTime where
  year : Nat
  month : Nat
  day : Nat
  hour : Nat
  minute : Nat
  second : Nat
deriving DecidableEq

/-- Gregorian leap-year rule, as in Python `calendar.isleap`. -/
def isLeap (y : Nat) : Bool :=
  decide (y % 4 = 0 ∧ (¬ y % 100 = 0 ∨ y % 400 = 0))

/-- Number of days in a year. -/
def daysInYear (leap : Bool) : Nat := if leap then 366 else 365

/-- Length of a month, as in Python `calendar.monthrange`. -/
def monthLength (leap : Bool) (m : Nat) : Nat :=
  if m = 2 then (if leap then 29 else 28)
  else if m = 4 ∨ m = 6 ∨ m = 9 ∨ m = 11 then 30 else 31

/-- Days from 0001-01-01 to the start of year `y` (Python `_days_before_year`:
`(y-1)*365 + (y-1)//4 - (y-1)//100 + (y-1)//400`, reassociated so the
truncated subtraction never borrows). -/
def daysBeforeYear (y : Nat) : Nat :=
  365 * (y - 1) + (y - 1) / 4 + (y - 1) / 400 - (y - 1) / 100

/-- Cumulative days before month `m` in a common year, extended constantly
past December so that the month search below is monotone. -/
def daysBeforeMonthB (m : Nat) : Nat :=
  if m ≤ 1 then 0 else if m = 2 then 31 else if m = 3 then 59 else if m = 4 then 90
  else if m = 5 then 120 else if m = 6 then 151 else if m = 7 then 181
  else if m = 8 then 212 else if m = 9 then 243 else if m = 10 then 273
  else if m = 11 then 304 else if m = 12 then 334 else 365

/-- Days before month `m` of a year (Python `_days_before_month`). -/
def daysBeforeMonth (leap : Bool) (m : Nat) : Nat :=
  daysBeforeMonthB m + (if leap ∧ 3 ≤ m then 1 else 0)

/-- Validity of the six fields, mirroring the checks of the `datetime`
constructor (`MINYEAR = 1`, `MAXYEAR = 9999`). -/
def validDT (y m d h mi s : Nat) : Bool :=
  decide (1 ≤ y) && decide (y ≤ 9999) && decide (1 ≤ m) && decide (m ≤ 12) &&
  decide (1 ≤ d) && decide (d ≤ monthLength (isLeap y) m) &&
  decide (h ≤ 23) && decide (mi ≤ 59) && decide (s ≤ 59)

/-- Proleptic-Gregorian ordinal of a date, day 0 being 0001-01-01
(Python `date.toordinal` minus one). -/
def toOrdinal (d : DateTime) : Nat :=
  daysBeforeYear d.year + daysBeforeMonth (isLeap d.year) d.month + (d.day - 1)

/-- Seconds within the day. -/
def timeOfDay (d : DateTime) : Nat :=
  d.hour * 3600 + d.minute * 60 + d.second

/-- Seconds from 0001-01-01 00:00:00 to the given civil time. -/
def toSecs (d : DateTime) : Nat := toOrdinal d * 86400 + timeOfDay d

/-- Ordinal of 1970-01-01: `daysBeforeYear 1970 = 719162`. -/
def epochOrdinal : Nat := 719162

/-- Python `int(dt.timestamp())` for a naive datetime with the local zone
modelled as the fixed offset `off` (seconds east of UTC). -/
def toEpochLocal (off : Int) (d : DateTime) : Int :=
  (toSecs d : Int) - (epochOrdinal : Int) * 86400 - off

/-- Bounded search for the largest index `k` (starting at `start`) with
`g k ≤ n`, stepping while `g (k+1) ≤ n`. -/
def searchCum (g : Nat → Nat) : Nat → Nat → Nat → Nat
  | 0, k, _ => k
  | fuel + 1, k, n => if g (k + 1) ≤ n then searchCum g fuel (k + 1) n else k

/-- Year containing day number `n` (days since 0001-01-01). -/
def yearFromDays (n : Nat) : Nat := searchCum daysBeforeYear 9998 1 n

/-- Month containing day-of-year `doy` (0-based). -/
def monthFromDoy (leap : Bool) (doy : Nat) : Nat :=
  searchCum (daysBeforeMonth leap) 11 1 doy

/-- Civil time of second number `n` since 0001-01-01 00:00:00
(Python `datetime.fromtimestamp` after the epoch shift). -/
def civilFromSecs (n : Nat) : DateTime :=
  let days := n / 86400
  let rem := n % 86400
  let y := yearFromDays days
  let doy := days - daysBeforeYear y
  let leap := isLeap y
  let m := monthFromDoy leap doy
  ⟨y, m, doy - daysBeforeMonth leap m + 1, rem / 3600, rem % 3600 / 60, rem % 60⟩

/-- Python `datetime.fromtimestamp(e)` under the fixed-offset local zone:
fails (raises) outside the supported year range 1..9999. -/
def fromtimestampLocal (off : Int) (e : Int) : Option DateTime :=
  let t := e + off + (epochOrdinal : Int) * 86400
  if 0 ≤ t ∧ t < ((daysBeforeYear 10000 * 86400 : Nat) : Int) then
    some (civilFromSecs t.toNat)
  else none

/-! ## The fixed time format: parsing and rendering -/

/-- Character for a decimal digit value. -/
def digitChar (n : Nat) : Char := Char.ofNat (48 + n)

/-- Decimal value of a digit character. -/
def digitVal (c : Char) : Option Nat :=
  if '0' ≤ c ∧ c ≤ '9' then some (c.toNat - 48) else none

/-- Greedy parse of one or two decimal digits, as the `%d`/`%H`/`%M`/`%S`
directives of `_strptime` match one or two digits. -/
def num2 : List Char → Option (Nat × List Char)
  | [] => none
  | c :: cs =>
    match digitVal c with
    | none => none
    | some v1 =>
      match cs with
      | c2 :: cs2 =>
        match digitVal c2 with
        | some v2 => some (v1 * 10 + v2, cs2)
        | none => some (v1, cs)
      | [] => some (v1, [])

/-- Parse of exactly four decimal digits, as the `%Y` directive. -/
def num4 (cs : List Char) : Option (Nat × List Char) :=
  match cs with
  | a :: b :: c :: d :: rest =>
    match digitVal a, digitVal b, digitVal c, digitVal d with
    | some x, some y, some z, some w => some (((x * 10 + y) * 10 + z) * 10 + w, rest)
    | _, _, _, _ => none
  | _ => none

/-- Month number of a lower-cased three-letter abbreviation (the `%b`
directive matches case-insensitively). -/
def monthIdx (key : String) : Option Nat :=
  match key with
  | "jan" => some 1 | "feb" => some 2 | "mar" => some 3 | "apr" => some 4
  | "may" => some 5 | "jun" => some 6 | "jul" => some 7 | "aug" => some 8
  | "sep" => some 9 | "oct" => some 10 | "nov" => some 11 | "dec" => some 12
  | _ => none

/-- Parse a three-letter month abbreviation. -/
def month3 (cs : List Char) : Option (Nat × List Char) :=
  match cs with
  | a :: b :: c :: rest =>
    match monthIdx (String.mk [a.toLower, b.toLower, c.toLower]) with
    | some m => some (m, rest)
    | none => none
  | _ => none

/-- Consume one expected literal character. -/
def lit (c : Char) : List Char → Option (List Char)
  | [] => none
  | c2 :: cs => if c2 = c then some cs else none

/-- Consume one or more whitespace characters (a whitespace run in a
`strptime` format matches one or more whitespace characters). -/
def ws1 : List Char → Option (List Char)
  | [] => none
  | c :: cs => if c.isWhitespace then some (cs.dropWhile Char.isWhitespace) else none

/-- Parse of the full format string, mirroring
`datetime.strptime(s, '%d-%b-%Y %H:%M:%S')` including the trailing
"unconverted data remains" check and the constructor range checks. -/
def parseDT (cs : List Char) : Option DateTime :=
  (num2 cs).bind fun p1 =>
  (lit '-' p1.2).bind fun r1 =>
  (month3 r1).bind fun p2 =>
  (lit '-' p2.2).bind fun r2 =>
  (num4 r2).bind fun p3 =>
  (ws1 p3.2).bind fun r3 =>
  (num2 r3).bind fun p4 =>
  (lit ':' p4.2).bind fun r4 =>
  (num2 r4).bind fun p5 =>
  (lit ':' p5.2).bind fun r5 =>
  (num2 r5).bind fun p6 =>
  if p6.2 = [] then
    if validDT p3.1 p2.1 p1.1 p4.1 p5.1 p6.1 then
      some ⟨p3.1, p2.1, p1.1, p4.1, p5.1, p6.1⟩
    else none
  else none

/-- Embedding of `convert_time_to_epoch`: parse the string with the fixed
format and convert to an integer Unix epoch; `none` models the `None`
returned when a `ValueError` is caught. -/
def convert_time_to_epoch (off : Int) (time_str : String) : Option Int :=
  (parseDT time_str.toList).map (fun d => toEpochLocal off d)

/-- Two zero-padded decimal digits, as `strftime` `%d`/`%H`/`%M`/`%S`. -/
def pad2L (n : Nat) : List Char := [digitChar (n / 10), digitChar (n % 10)]

/-- Four decimal digits, as `strftime` `%Y` for years 1000..9999. -/
def pad4L (n : Nat) : List Char :=
  [digitChar (n / 1000 % 10), digitChar (n / 100 % 10),
   digitChar (n / 10 % 10), digitChar (n % 10)]

/-- Capitalised month abbreviation, as `strftime` `%b` in the C locale. -/
def monthAbbrL : Nat → List Char
  | 1 => ['J', 'a', 'n'] | 2 => ['F', 'e', 'b'] | 3 => ['M', 'a', 'r']
  | 4 => ['A', 'p', 'r'] | 5 => ['M', 'a', 'y'] | 6 => ['J', 'u', 'n']
  | 7 => ['J', 'u', 'l'] | 8 => ['A', 'u', 'g'] | 9 => ['S', 'e', 'p']
  | 10 => ['O', 'c', 't'] | 11 => ['N', 'o', 'v'] | 12 => ['D', 'e', 'c']
  | _ => []

/-- Character list of `dt.strftime('%d-%b-%Y %H:%M:%S')`. -/
def renderTimeL (d : DateTime) : List Char :=
  pad2L d.day ++ '-' :: (monthAbbrL d.month ++ '-' :: (pad4L d.year ++ ' ' ::
    (pad2L d.hour ++ ':' :: (pad2L d.minute ++ ':' :: pad2L d.second))))

/-- Embedding of `dt.strftime('%d-%b-%Y %H:%M:%S')`. -/
def renderTime (d : DateTime) : String := String.mk (renderTimeL d)

/-- Embedding of
`datetime.fromtimestamp(e).strftime('%d-%b-%Y %H:%M:%S')`, the rendering
used by `verify_database_data` (line 281 of the source). -/
def formatEpochLocal (off : Int) (e : Int) : Option String :=
  (fromtimestampLocal off e).map renderTime

/-! ## Python `float` and `str.strip` on CSV field text -/

/-- Embedding of `str.strip()`: drop leading and trailing whitespace
(Python strips a slightly larger whitespace set; the difference is
immaterial here). -/
def pyStrip (s : String) : String :=
  String.mk (((s.toList.dropWhile Char.isWhitespace).reverse.dropWhile
    Char.isWhitespace).reverse)

/-- Consume a run of decimal digits, returning value, digit count and rest. -/
def takeDigits : List Char → Nat → Nat → (Nat × Nat × List Char)
  | [], acc, n => (acc, n, [])
  | c :: cs, acc, n =>
    match digitVal c with
    | some v => takeDigits cs (acc * 10 + v) (n + 1)
    | none => (acc, n, c :: cs)

/-- Embedding of Python `float(s)` on finite decimal literals: optional
surrounding whitespace, optional sign, digits with optional fraction and
optional decimal exponent.  `none` models a raised `ValueError`. -/
def pyFloat (s : String) : Option Rat :=
  let cs0 := (pyStrip s).toList
  let sp : Rat × List Char :=
    match cs0 with
    | '+' :: rest => (1, rest)
    | '-' :: rest => (-1, rest)
    | _ => (1, cs0)
  let ip := takeDigits sp.2 0 0
  let fp : Nat × Nat × List Char :=
    match ip.2.2 with
    | '.' :: rest => takeDigits rest 0 0
    | _ => (0, 0, ip.2.2)
  if ip.2.1 + fp.2.1 = 0 then none
  else
    let base : Rat := (ip.1 : Rat) + (fp.1 : Rat) / (10 : Rat) ^ fp.2.1
    match fp.2.2 with
    | [] => some (sp.1 * base)
    | e :: rest =>
      if e = 'e' ∨ e = 'E' then
        let esp : Bool × List Char :=
          match rest with
          | '+' :: r2 => (false, r2)
          | '-' :: r2 => (true, r2)
          | _ => (false, rest)
        let ev := takeDigits esp.2 0 0
        if ev.2.1 = 0 ∨ ev.2.2 ≠ [] then none
        else
          let scaled : Rat :=
            if esp.1 then base / (10 : Rat) ^ ev.1 else base * (10 : Rat) ^ ev.1
          some (sp.1 * scaled)
      else none

/-! ## Records and `process_csv_data` -/

/-- Python exceptions that can escape or be caught in the pipeline. -/
inductive PyErr
  | valueError
  | typeError
  | attributeError
  | keyError
deriving DecidableEq

/-- A `csv.DictReader` row: association list from column name to value;
a `none` value models the `None` filled in for a short input line. -/
abbrev Record := List (String × Option String)

/-- Python `row[k]` on a dict: `KeyError` when the column is absent. -/
def lookupKey (r : Record) (k : String) : Except PyErr (Option String) :=
  match r.find? (fun p => p.1 == k) with
  | some p => .ok p.2
  | none => .error .keyError

/-- A persisted Location Row, matching the `location_data` schema. -/
structure LocRow where
  timestamp : Int
  latitude : Option Rat
  longitude : Option Rat
  heading : Option Rat
deriving DecidableEq

/-- Loop state of `process_csv_data`: output rows, conversion-error count,
the duplicate-detection set (as a list) and duplicate count. -/
structure ProcState where
  processed : List LocRow
  conversion_errors : Nat
  duplicate_timestamps : List Int
  duplicates_found : Nat
deriving DecidableEq

/-- Evaluation of `float(row[k]) if row[k].strip() else None` for one
numeric column: `KeyError` if the column is missing, `AttributeError` if the
value is `None`, `none` if blank, `ValueError` if non-blank and unparsable. -/
def numField (r : Record) (k : String) : Except PyErr (Option Rat) :=
  match lookupKey r k with
  | .error e => .error e
  | .ok none => .error .attributeError
  | .ok (some s) =>
    if pyStrip s = "" then .ok none
    else
      match pyFloat s with
      | some q => .ok (some q)
      | none => .error .valueError

/-- The `try` block converting the three numeric fields, with the
`except ValueError` handler: `.ok none` means a `ValueError` was caught and
the row is skipped; any other exception propagates. -/
def tryNumFields (r : Record) :
    Except PyErr (Option (Option Rat × Option Rat × Option Rat)) :=
  match numField r "gps_hdt" with
  | .error .valueError => .ok none
  | .error e => .error e
  | .ok h =>
    match numField r "PosLat" with
    | .error .valueError => .ok none
    | .error e => .error e
    | .ok la =>
      match numField r "PosLon" with
      | .error .valueError => .ok none
      | .error e => .error e
      | .ok lo => .ok (some (h, la, lo))

/-- One iteration of the `process_csv_data` loop on one record. -/
def processRow (off : Int) (st : ProcState) (r : Record) :
    Except PyErr ProcState :=
  match lookupKey r "Time" with
  | .error e => .error e
  | .ok none => .error .typeError
  | .ok (some s) =>
    match convert_time_to_epoch off s with
    | none => .ok { st with conversion_errors := st.conversion_errors + 1 }
    | some epoch =>
      if epoch ∈ st.duplicate_timestamps then
        match lookupKey r "time_utc" with
        | .error e => .error e
        | .ok _ => .ok { st with duplicates_found := st.duplicates_found + 1 }
      else
        let st2 := { st with duplicate_timestamps := epoch :: st.duplicate_timestamps }
        match tryNumFields r with
        | .error e => .error e
        | .ok none => .ok { st2 with conversion_errors := st2.conversion_errors + 1 }
        | .ok (some q) =>
          .ok { st2 with processed := st2.processed ++ [⟨epoch, q.2.1, q.2.2, q.1⟩] }

/-- Fold of `processRow` over the record sequence. -/
def processAll (off : Int) : ProcState → List Record → Except PyErr ProcState
  | st, [] => .ok st
  | st, r :: rs =>
    match processRow off st r with
    | .error e => .error e
    | .ok st2 => processAll off st2 rs

/-- Initial loop state of `process_csv_data`. -/
def initState : ProcState := ⟨[], 0, [], 0⟩

/-- Embedding of `process_csv_data`: the source returns only
`processed_data` and prints the counters; we return the whole loop state so
the counters can be specified. -/
def process_csv_data (off : Int) (data : List Record) : Except PyErr ProcState :=
  processAll off initState data

/-! ## Database model, `insert_data_to_database`, import and verify -/

/-- The `location_data` table: list of rows in insertion order. -/
abbrev Table := List LocRow

/-- Errors SQLite statements can raise. -/
inductive SqlErr
  | integrity
  | operational
deriving DecidableEq

/-- Whether the table already holds a row with this primary key. -/
def tableHasTs (t : Table) (x : Int) : Bool :=
  t.any (fun r => r.timestamp == x)

/-- Whether the candidate list repeats a primary key. -/
def hasDupTs : List LocRow → Bool
  | [] => false
  | r :: rs => tableHasTs rs r.timestamp || hasDupTs rs

/-- Whether the fault oracle fires at any statement position below `n`. -/
def anyFault (fault : Nat → Bool) (n : Nat) : Bool := (List.range n).any fault

/-- One INSERT statement at position `k`: an exogenous fault raises an
operational error; a duplicate primary key raises an integrity error. -/
def applyInsert (fault : Nat → Bool) (k : Nat) (t : Table) (r : LocRow) :
    Except SqlErr Table :=
  if fault k then .error .operational
  else if tableHasTs t r.timestamp then .error .integrity
  else .ok (t ++ [r])

/-- The INSERT loop, statement positions starting at `k`. -/
def runInserts (fault : Nat → Bool) : List LocRow → Nat → Table → Except SqlErr Table
  | [], _, t => .ok t
  | r :: rs, k, t =>
    match applyInsert fault k t r with
    | .error e => .error e
    | .ok t2 => runInserts fault rs (k + 1) t2

/-- Embedding of `insert_data_to_database`: within one transaction, DELETE
all rows (statement 0), INSERT each candidate (statements 1..n), COMMIT
(statement n+1).  On any exception the `with sqlite3.connect(...)` context
manager rolls the transaction back and the function returns `False`, so the
pre-call table is kept. -/
def insert_data_to_database (fault : Nat → Bool) (rows : List LocRow)
    (tbl : Table) : Bool × Table :=
  if fault 0 then (false, tbl)
  else
    match runInserts fault rows 1 [] with
    | .error _ => (false, tbl)
    | .ok t2 => if fault (rows.length + 1) then (false, tbl) else (true, t2)

/-- Embedding of `create_database_table`: CREATE TABLE IF NOT EXISTS — an
absent table becomes empty, an existing table keeps its rows. -/
def create_database_table (db : Option Table) : Table :=
  match db with
  | none => []
  | some t => t

/-- The required CSV columns. -/
def required_columns : List String := ["Time", "gps_hdt", "PosLat", "PosLon"]

/-- Embedding of `validate_csv_data`: empty data fails; otherwise the first
record must carry every required column. -/
def validate_csv_data (data : List Record) : Bool :=
  match data with
  | [] => false
  | first :: _ =>
    let available := first.map (fun p => p.1)
    (required_columns.filter (fun c => !(available.contains c))).isEmpty

/-- Embedding of `import_csv_to_sqlite` from the record sequence on (the
file reading step is I/O and is outside the model): validate, process,
reject an empty result, then insert.  Uncaught Python exceptions from
processing propagate out of the function. -/
def import_csv_to_sqlite (fault : Nat → Bool) (off : Int) (data : List Record)
    (tbl : Table) : Except PyErr (Bool × Table) :=
  if validate_csv_data data = false then .ok (false, tbl)
  else
    match process_csv_data off data with
    | .error e => .error e
    | .ok st =>
      if st.processed.isEmpty then .ok (false, tbl)
      else .ok (insert_data_to_database fault st.processed tbl)

/-- Final table contents after a run of `import_csv_to_sqlite`: a run that
aborts (by returning `False` or by an uncaught exception) leaves the table
as it was. -/
def importFinalTable (fault : Nat → Bool) (off : Int) (data : List Record)
    (tbl : Table) : Table :=
  match import_csv_to_sqlite fault off data tbl with
  | .ok p => p.2
  | .error _ => tbl

/-- Insertion into a list sorted by timestamp. -/
def insertByTs (r : LocRow) : List LocRow → List LocRow
  | [] => [r]
  | x :: xs => if r.timestamp ≤ x.timestamp then r :: x :: xs else x :: insertByTs r xs

/-- Sort by timestamp, modelling `ORDER BY timestamp`. -/
def sortByTs (l : List LocRow) : List LocRow := l.foldr insertByTs []

/-- Schema metadata printed by the verifier. -/
def locationSchemaLines : List String :=
  ["  timestamp INTEGER PRIMARY KEY NOT NULL",
   "  latitude REAL", "  longitude REAL", "  heading REAL"]

/-- Rendering of one sample row (on a rendering exception the source would
abort the remaining prints; either way nothing is written). -/
def sampleLine (off : Int) (r : LocRow) : String :=
  (formatEpochLocal off r.timestamp).getD "error"

/-- Embedding of `verify_database_data`: produces the diagnostic lines and
the post-call database state.  The source only issues SELECT and PRAGMA
statements; no statement in it writes, so the state passes through. -/
def verify_database_data (off : Int) (db : Option Table) (limit : Nat) :
    List String × Option Table :=
  match db with
  | none => (["Error: Table 'location_data' does not exist."], none)
  | some t =>
    let countLine := "Total records: " ++ toString t.length
    let sample := (sortByTs t).take limit
    (locationSchemaLines ++ countLine :: sample.map (sampleLine off), some t)

/-- First row of the duplicate-timestamp scenario in the specification. -/
def scenarioRow1 : Record :=
  [("Time", some "15-Mar-2023 14:30:25"), ("gps_hdt", some "10.5"),
   ("PosLat", some "45.0"), ("PosLon", some "-122.0")]

/-- Second row of the duplicate-timestamp scenario: same `Time`, different
numeric values. -/
def scenarioRow2 : Record :=
  [("Time", some "15-Mar-2023 14:30:25"), ("gps_hdt", some "11.0"),
   ("PosLat", some "45.1"), ("PosLon", some "-122.1")]

/-- A record produced by `csv.DictReader` for an input line shorter than the
header: the missing trailing fields are filled with `None`. -/
def shortLineRow : Record :=
  [("Time", some "15-Mar-2023 14:30:25"), ("gps_hdt", none),
   ("PosLat", none), ("PosLon", none)]

/-- A record with a valid timestamp but non-numeric text in `gps_hdt`. -/
def badNumRow : Record :=
  [("Time", some "15-Mar-2023 14:30:25"), ("gps_hdt", some "abc"),
   ("PosLat", some "45.0"), ("PosLon", some "-122.0")]

/-- The specification's blank-field scenario: `gps_hdt` is empty text. -/
def blankFieldRow : Record :=
  [("Time", some "15-Mar-2023 14:30:25"), ("gps_hdt", some ""),
   ("PosLat", some "45.0"), ("PosLon", some "-122.0")]

/-- A record with an already-seen timestamp that also carries a `time_utc`
column, so its duplicate-warning line can be printed and the run continue. -/
def dupTimeUtcRow : Record :=
  [("Time", some "15-Mar-2023 14:30:25"), ("gps_hdt", some "1.0"),
   ("PosLat", some "2.0"), ("PosLon", some "3.0"), ("time_utc", some "x")]

/-! ## Lemmas about the writer -/

theorem tableHasTs_false_iff (t : Table) (x : Int) :
    tableHasTs t x = false ↔ ∀ r ∈ t, r.timestamp ≠ x := by
  simp [tableHasTs]

theorem runInserts_ok_eq (fault : Nat → Bool) :
    ∀ (rows : List LocRow) (k : Nat) (t t2 : Table),
      runInserts fault rows k t = .ok t2 → t2 = t ++ rows := by
  intro rows
  induction rows with
  | nil =>
    intro k t t2 h
    simp only [runInserts, Except.ok.injEq] at h
    simp [h.symm]
  | cons r rs ih =>
    intro k t t2 h
    simp only [runInserts, applyInsert] at h
    by_cases hf0 : fault k
    · rw [if_pos hf0] at h; exact absurd h (by simp)
    · rw [if_neg hf0] at h
      by_cases htr : tableHasTs t r.timestamp
      · rw [if_pos htr] at h; exact absurd h (by simp)
      · rw [if_neg htr] at h
        simpa using ih (k + 1) (t ++ [r]) t2 h

theorem runInserts_ok (fault : Nat → Bool) :
    ∀ (rows : List LocRow) (k : Nat) (t : Table),
      (∀ j, j < rows.length → fault (k + j) = false) →
      hasDupTs rows = false →
      (∀ r ∈ rows, tableHasTs t r.timestamp = false) →
      runInserts fault rows k t = .ok (t ++ rows) := by
  intro rows
  induction rows with
  | nil => intro k t _ _ _; simp [runInserts]
  | cons r rs ih =>
    intro k t hf hd ht
    have hf0 : fault k = false := by simpa using hf 0 (by simp)
    have htr : tableHasTs t r.timestamp = false := ht r (by simp)
    have hd2 : tableHasTs rs r.timestamp = false ∧ hasDupTs rs = false := by
      simpa [hasDupTs] using hd
    have hrecur := ih (k + 1) (t ++ [r])
      (fun j hj => by
        have h2 := hf (j + 1) (by simpa using Nat.succ_lt_succ hj)
        have e : k + 1 + j = k + (j + 1) := by omega
        rw [e]; exact h2)
      hd2.2
      (fun r2 hr2 => by
        have h1 : ∀ q ∈ t, q.timestamp ≠ r2.timestamp :=
          (tableHasTs_false_iff _ _).mp (ht r2 (by simp [hr2]))
        have h2 : r.timestamp ≠ r2.timestamp :=
          (tableHasTs_false_iff _ _).mp hd2.1 r2 hr2 ∘ Eq.symm
        refine (tableHasTs_false_iff _ _).mpr ?_
        intro q hq
        rcases List.mem_append.mp hq with hq | hq
        · exact h1 q hq
        · simp only [List.mem_singleton] at hq
          subst hq; exact h2)
    simp only [runInserts, applyInsert, hf0, htr, Bool.false_eq_true, if_false]
    simpa using hrecur

theorem runInserts_ok_inv (fault : Nat → Bool) :
    ∀ (rows : List LocRow) (k : Nat) (t t2 : Table),
      runInserts fault rows k t = .ok t2 →
      (∀ j, j < rows.length → fault (k + j) = false) ∧ hasDupTs rows = false ∧
        (∀ r ∈ rows, tableHasTs t r.timestamp = false) := by
  intro rows
  induction rows with
  | nil => intro k t t2 _; exact ⟨by simp, rfl, by simp⟩
  | cons r rs ih =>
    intro k t t2 h
    simp only [runInserts, applyInsert] at h
    by_cases hf0 : fault k
    · rw [if_pos hf0] at h; exact absurd h (by simp)
    · rw [if_neg hf0] at h
      by_cases htr : tableHasTs t r.timestamp
      · rw [if_pos htr] at h; exact absurd h (by simp)
      · rw [if_neg htr] at h
        obtain ⟨ihf, ihd, iht⟩ := ih (k + 1) (t ++ [r]) t2 h
        have hne : ∀ r2 ∈ rs, r.timestamp ≠ r2.timestamp := by
          intro r2 hr2
          have := (tableHasTs_false_iff _ _).mp (iht r2 hr2) r (by simp)
          exact this
        refine ⟨?_, ?_, ?_⟩
        · intro j hj
          cases j with
          | zero => simpa using hf0
          | succ j2 =>
            have h2 := ihf j2 (by simpa using Nat.lt_of_succ_lt_succ hj)
            have e : k + (j2 + 1) = k + 1 + j2 := by omega
            rw [e]; exact h2
        · have h1 : tableHasTs rs r.timestamp = false := by
            refine (tableHasTs_false_iff _ _).mpr ?_
            intro r2 hr2
            exact fun he => hne r2 hr2 he.symm
          simp [hasDupTs, h1, ihd]
        · intro r2 hr2
          rcases List.mem_cons.mp hr2 with hr2 | hr2
          · subst hr2; simpa using htr
          · refine (tableHasTs_false_iff _ _).mpr ?_
            intro q hq
            exact (tableHasTs_false_iff _ _).mp (iht r2 hr2) q (by simp [hq])

theorem anyFault_true_of (fault : Nat → Bool) (n j : Nat) (hj : j < n)
    (h : fault j = true) : anyFault fault n = true := by
  simp only [anyFault, List.any_eq_true]
  exact ⟨j, List.mem_range.mpr hj, h⟩

theorem anyFault_false_iff (fault : Nat → Bool) (n : Nat) :
    anyFault fault n = false ↔ ∀ j, j < n → fault j = false := by
  simp [anyFault]

/-- Full characterisation of `insert_data_to_database`: with no storage
fault and no duplicate key the table becomes exactly the candidate list and
the call reports success; on any error the transaction rolls back and the
pre-call table is returned with failure. -/
theorem insert_data_eq (fault : Nat → Bool) (rows : List LocRow) (tbl : Table) :
    insert_data_to_database fault rows tbl =
      if anyFault fault (rows.length + 2) || hasDupTs rows then (false, tbl)
      else (true, rows) := by
  by_cases hf0 : fault 0
  · have ha : anyFault fault (rows.length + 2) = true :=
      anyFault_true_of fault _ 0 (by omega) hf0
    simp [insert_data_to_database, hf0, ha]
  · simp only [insert_data_to_database, hf0, Bool.false_eq_true, if_false]
    cases hrun : runInserts fault rows 1 [] with
    | error e =>
      by_cases hc : (anyFault fault (rows.length + 2) || hasDupTs rows) = true
      · simp [hc]
      · exfalso
        simp only [Bool.or_eq_true, not_or] at hc
        obtain ⟨haf, hdf⟩ := hc
        have haf2 := (anyFault_false_iff fault _).mp (by
          cases h2 : anyFault fault (rows.length + 2)
          · rfl
          · exact absurd h2 haf)
        have hdf2 : hasDupTs rows = false := by
          cases h2 : hasDupTs rows
          · rfl
          · exact absurd h2 hdf
        have := runInserts_ok fault rows 1 []
          (fun j hj => haf2 (1 + j) (by omega)) hdf2 (by simp [tableHasTs])
        rw [hrun] at this
        exact absurd this (by simp)
    | ok t2 =>
      obtain ⟨ihf, ihd, _⟩ := runInserts_ok_inv fault rows 1 [] t2 hrun
      have ht2 : t2 = rows := by simpa using runInserts_ok_eq fault rows 1 [] t2 hrun
      by_cases hfc : fault (rows.length + 1)
      · have ha : anyFault fault (rows.length + 2) = true :=
          anyFault_true_of fault _ (rows.length + 1) (by omega) hfc
        simp [hfc, ha]
      · have ha : anyFault fault (rows.length + 2) = false := by
          refine (anyFault_false_iff fault _).mpr ?_
          intro j hj
          rcases Nat.eq_or_lt_of_le (Nat.le_of_lt_succ hj) with he | hl
          · rw [he]; simpa using hfc
          · rcases Nat.eq_zero_or_pos j with hz | hp
            · rw [hz]; simpa using hf0
            · have := ihf (j - 1) (by omega)
              have hj2 : 1 + (j - 1) = j := by omega
              rwa [hj2] at this
        simp [hfc, ha, ihd, ht2]

/-- Case split for a whole import run: either every prior table passes
through unchanged (validation failure, uncaught exception, empty result, or
a storage error rolling back), or the final table is a fixed row list
independent of the prior table (the successful full replace). -/
theorem importFinalTable_cases (fault : Nat → Bool) (off : Int) (data : List Record) :
    (∀ t : Table, importFinalTable fault off data t = t) ∨
    (∃ rows : Table, ∀ t : Table, importFinalTable fault off data t = rows) := by
  by_cases hv : validate_csv_data data = false
  · left; intro t; simp [importFinalTable, import_csv_to_sqlite, hv]
  · cases hp : process_csv_data off data with
    | error e =>
      left; intro t
      simp [importFinalTable, import_csv_to_sqlite, hv, hp]
    | ok st =>
      by_cases he : st.processed.isEmpty
      · left; intro t; simp [importFinalTable, import_csv_to_sqlite, hv, hp, he]
      · by_cases hc : (anyFault fault (st.processed.length + 2) || hasDupTs st.processed) = true
        · left; intro t
          simp [importFinalTable, import_csv_to_sqlite, hv, hp, he, insert_data_eq, hc]
        · right
          refine ⟨st.processed, fun t => ?_⟩
          simp only [Bool.not_eq_true] at hc
          simp [importFinalTable, import_csv_to_sqlite, hv, hp, he, insert_data_eq, hc]

/-- C2: for every candidate row sequence and prior table state, a storage
error during the delete-then-insert replacement (an exogenous fault at any
statement, or a primary-key violation from a repeated timestamp) makes the
writer return failure with the table equal to its pre-call contents, and an
error-free run returns success with the table equal to exactly the
candidate sequence. -/
theorem c2_insert_all_or_nothing (fault : Nat → Bool) (rows : List LocRow) (tbl : Table) :
    insert_data_to_database fault rows tbl =
      if anyFault fault (rows.length + 2) || hasDupTs rows then (false, tbl)
      else (true, rows) :=
  insert_data_eq fault rows tbl

/-- C6: running the import twice in succession on the same input (and the
same storage-fault behaviour) leaves the table with the same final content
as running it once: a successful run fully replaces the table with a row
list that does not depend on the prior contents, and a failed run leaves
the table untouched. -/
theorem c6_import_idempotent (fault : Nat → Bool) (off : Int) (data : List Record)
    (tbl : Table) :
    importFinalTable fault off data (importFinalTable fault off data tbl) =
      importFinalTable fault off data tbl := by
  rcases importFinalTable_cases fault off data with h | ⟨rows, h⟩
  · rw [h, h]
  · rw [h, h]

/-- C7: a header-only CSV yields an empty record sequence; the validator
reports the no-data failure, the import returns failure before any write is
attempted (any prior table passes through untouched, whatever the storage
faults), and starting from a freshly created table the destination is left
with zero rows. -/
theorem c7_empty_csv_fails_no_write (fault : Nat → Bool) (off : Int) :
    validate_csv_data [] = false ∧
    (∀ tbl : Table, import_csv_to_sqlite fault off [] tbl = .ok (false, tbl)) ∧
    import_csv_to_sqlite fault off [] (create_database_table none) = .ok (false, []) := by
  exact ⟨rfl, fun tbl => rfl, rfl⟩

/-- C10: the verifier performs no modification of the destination store:
for every database state (table present or absent) and display limit, the
post-call state equals the pre-call state. -/
theorem c10_verify_readonly (off : Int) (db : Option Table) (limit : Nat) :
    (verify_database_data off db limit).2 = db := by
  cases db <;> rfl

/-- C1 failing input: on the specification's own duplicate-timestamp
scenario (two records with identical `Time` and only the four required
columns) the transformer does not skip the later record and continue; the
duplicate-warning line reads `row['time_utc']`, a key the record does not
have, so the run aborts with an uncaught `KeyError`. -/
theorem c1_duplicate_row_crashes_on_missing_time_utc :
    process_csv_data 0 [scenarioRow1, scenarioRow2] = .error .keyError := by
  rfl

/-- C9: a record whose `Time` parses but whose numeric field is absent
(`None`, as `csv.DictReader` produces for an input line shorter than the
header) makes the transformer raise an uncaught `AttributeError` from
`None.strip()` instead of counting a conversion error and skipping. -/
theorem c9_missing_field_uncaught :
    process_csv_data 0 [shortLineRow] = .error .attributeError := by
  rfl

/-! ## Lemmas about the transformer -/

theorem numField_some (r : Record) (k : String) (v : String)
    (h : lookupKey r k = .ok (some v)) :
    numField r k =
      (if pyStrip v = "" then .ok none
       else
         match pyFloat v with
         | some q => .ok (some q)
         | none => .error .valueError) := by
  simp [numField, h]

/-- C4: a record whose timestamp parses to a fresh epoch and whose three
numeric columns all carry text, at least one of which is non-blank and
unparsable as a float, is dropped whole — nothing is appended to the output,
the epoch still enters the duplicate set, the duplicate count is untouched
and the conversion-error count increments by exactly one. -/
theorem c4_numeric_failure_drops_row (off : Int) (st : ProcState) (r : Record)
    (s hv lv ov : String) (e : Int)
    (hT : lookupKey r "Time" = .ok (some s))
    (hH : lookupKey r "gps_hdt" = .ok (some hv))
    (hL : lookupKey r "PosLat" = .ok (some lv))
    (hO : lookupKey r "PosLon" = .ok (some ov))
    (hE : convert_time_to_epoch off s = some e)
    (hND : e ∉ st.duplicate_timestamps)
    (hBad : (pyStrip hv ≠ "" ∧ pyFloat hv = none) ∨
            (pyStrip lv ≠ "" ∧ pyFloat lv = none) ∨
            (pyStrip ov ≠ "" ∧ pyFloat ov = none)) :
    processRow off st r = .ok { st with
      duplicate_timestamps := e :: st.duplicate_timestamps,
      conversion_errors := st.conversion_errors + 1 } := by
  have nH := numField_some r "gps_hdt" hv hH
  have nL := numField_some r "PosLat" lv hL
  have nO := numField_some r "PosLon" ov hO
  have htry : tryNumFields r = .ok none := by
    rcases hBad with ⟨hb, hf⟩ | ⟨hb, hf⟩ | ⟨hb, hf⟩
    · simp [tryNumFields, nH, hb, hf]
    · by_cases hb1 : pyStrip hv = ""
      · simp [tryNumFields, nH, nL, hb1, hb, hf]
      · cases hf1 : pyFloat hv with
        | none => simp [tryNumFields, nH, hb1, hf1]
        | some q => simp [tryNumFields, nH, nL, hb1, hf1, hb, hf]
    · by_cases hb1 : pyStrip hv = ""
      · by_cases hb2 : pyStrip lv = ""
        · simp [tryNumFields, nH, nL, nO, hb1, hb2, hb, hf]
        · cases hf2 : pyFloat lv with
          | none => simp [tryNumFields, nH, nL, hb1, hb2, hf2]
          | some q => simp [tryNumFields, nH, nL, nO, hb1, hb2, hf2, hb, hf]
      · cases hf1 : pyFloat hv with
        | none => simp [tryNumFields, nH, hb1, hf1]
        | some q =>
          by_cases hb2 : pyStrip lv = ""
          · simp [tryNumFields, nH, nL, nO, hb1, hf1, hb2, hb, hf]
          · cases hf2 : pyFloat lv with
            | none => simp [tryNumFields, nH, nL, hb1, hf1, hb2, hf2]
            | some q2 => simp [tryNumFields, nH, nL, nO, hb1, hf1, hb2, hf2, hb, hf]
  simp [processRow, hT, hE, hND, htry]

/-- C4 witness: the theorem applied to `badNumRow` with the empty loop
state. -/
theorem c4_numeric_failure_drops_row_witness :
    (pyStrip "abc" ≠ "" ∧ pyFloat "abc" = none) ∧
    processRow 0 initState badNumRow =
      .ok { initState with
        duplicate_timestamps := (1678890625 : Int) :: initState.duplicate_timestamps,
        conversion_errors := initState.conversion_errors + 1 } :=
  ⟨⟨by decide, rfl⟩,
   c4_numeric_failure_drops_row 0 initState badNumRow
     "15-Mar-2023 14:30:25" "abc" "45.0" "-122.0" 1678890625
     rfl rfl rfl rfl rfl (by simp [initState]) (Or.inl ⟨by decide, rfl⟩)⟩

theorem no_self_append (l : List LocRow) (row : LocRow) (h : l = l ++ [row]) :
    False := by
  have h2 := congrArg List.length h
  simp at h2

theorem tryNumFields_ok_some (r : Record) (h la lo : Option Rat)
    (htry : tryNumFields r = .ok (some (h, la, lo))) :
    numField r "gps_hdt" = .ok h ∧ numField r "PosLat" = .ok la ∧
      numField r "PosLon" = .ok lo := by
  unfold tryNumFields at htry
  split at htry
  · exact absurd htry (by simp)
  · exact absurd htry (by simp)
  · rename_i h0 hH
    split at htry
    · exact absurd htry (by simp)
    · exact absurd htry (by simp)
    · rename_i l0 hL
      split at htry
      · exact absurd htry (by simp)
      · exact absurd htry (by simp)
      · rename_i o0 hO
        simp only [Except.ok.injEq, Option.some.injEq, Prod.mk.injEq] at htry
        obtain ⟨e1, e2, e3⟩ := htry
        subst e1; subst e2; subst e3
        exact ⟨hH, hL, hO⟩

theorem numField_ok_cases (r : Record) (k v : String) (x : Option Rat)
    (hl : lookupKey r k = .ok (some v)) (hx : numField r k = .ok x) :
    (pyStrip v = "" → x = none) ∧
    (pyStrip v ≠ "" → ∃ q, pyFloat v = some q ∧ x = some q) := by
  rw [numField_some r k v hl] at hx
  by_cases hb : pyStrip v = ""
  · rw [if_pos hb] at hx
    simp only [Except.ok.injEq] at hx
    exact ⟨fun _ => hx.symm, fun hc => absurd hb hc⟩
  · rw [if_neg hb] at hx
    cases hf : pyFloat v with
    | none => rw [hf] at hx; exact absurd hx (by simp)
    | some q =>
      rw [hf] at hx
      simp only [Except.ok.injEq] at hx
      exact ⟨fun hc => absurd hc hb, fun _ => ⟨q, rfl, hx.symm⟩⟩

/-- C5: whenever a record produces an output row, a blank or
whitespace-only numeric field maps to an absent value in that row, and a
non-blank numeric field maps to exactly its parsed float value. -/
theorem c5_blank_maps_to_absent (off : Int) (st : ProcState) (r : Record)
    (hv lv ov : String) (row : LocRow) (st2 : ProcState)
    (hH : lookupKey r "gps_hdt" = .ok (some hv))
    (hL : lookupKey r "PosLat" = .ok (some lv))
    (hO : lookupKey r "PosLon" = .ok (some ov))
    (hstep : processRow off st r = .ok st2)
    (happ : st2.processed = st.processed ++ [row]) :
    (pyStrip hv = "" → row.heading = none) ∧
    (pyStrip hv ≠ "" → ∃ q, pyFloat hv = some q ∧ row.heading = some q) ∧
    (pyStrip lv = "" → row.latitude = none) ∧
    (pyStrip lv ≠ "" → ∃ q, pyFloat lv = some q ∧ row.latitude = some q) ∧
    (pyStrip ov = "" → row.longitude = none) ∧
    (pyStrip ov ≠ "" → ∃ q, pyFloat ov = some q ∧ row.longitude = some q) := by
  unfold processRow at hstep
  split at hstep
  · exact absurd hstep (by simp)
  · exact absurd hstep (by simp)
  · rename_i s hT
    split at hstep
    · simp only [Except.ok.injEq] at hstep
      rw [← hstep] at happ
      exact absurd happ (fun hc => no_self_append _ _ hc)
    · rename_i epoch hE
      split at hstep
      · split at hstep
        · exact absurd hstep (by simp)
        · simp only [Except.ok.injEq] at hstep
          rw [← hstep] at happ
          exact absurd happ (fun hc => no_self_append _ _ hc)
      · rename_i hND
        split at hstep
        · exact absurd hstep (by simp)
        · simp only [Except.ok.injEq] at hstep
          rw [← hstep] at happ
          exact absurd happ (fun hc => no_self_append _ _ hc)
        · rename_i q htry
          simp only [Except.ok.injEq] at hstep
          rw [← hstep] at happ
          simp only [] at happ
          have hrow : row = ⟨epoch, q.2.1, q.2.2, q.1⟩ := by
            have h2 := List.append_cancel_left happ
            simp only [List.cons.injEq, and_true] at h2
            exact h2.symm
          have htry2 : tryNumFields r = .ok (some (q.1, q.2.1, q.2.2)) := by
            rw [htry]
          obtain ⟨nh, nl, no2⟩ := tryNumFields_ok_some r q.1 q.2.1 q.2.2 htry2
          obtain ⟨ch1, ch2⟩ := numField_ok_cases r "gps_hdt" hv q.1 hH nh
      

    

          obtain ⟨cl1, cl2⟩ := numField_ok_cases r "PosLat" lv q.2.1 hL nl
          obtain ⟨co1, co2⟩ := numField_ok_cases r "PosLon" ov q.2.2 hO no2
          subst hrow
          exact ⟨ch1, ch2, cl1, cl2, co1, co2⟩

/-- C5 witness: the theorem applied to the specification's blank-field
scenario record. -/
theorem c5_blank_maps_to_absent_witness :
    processRow 0 initState blankFieldRow =
      .ok ⟨[⟨1678890625, pyFloat "45.0", pyFloat "-122.0", none⟩], 0,
        [(1678890625 : Int)], 0⟩ ∧
    ((⟨1678890625, pyFloat "45.0", pyFloat "-122.0", none⟩ : LocRow).heading = none ∧
     (∃ q, pyFloat "45.0" = some q ∧
       (⟨1678890625, pyFloat "45.0", pyFloat "-122.0", none⟩ : LocRow).latitude = some q) ∧
     (∃ q, pyFloat "-122.0" = some q ∧
       (⟨1678890625, pyFloat "45.0", pyFloat "-122.0", none⟩ : LocRow).longitude = some q)) := by
  have h := c5_blank_maps_to_absent 0 initState blankFieldRow "" "45.0" "-122.0"
    ⟨1678890625, pyFloat "45.0", pyFloat "-122.0", none⟩
    ⟨[⟨1678890625, pyFloat "45.0", pyFloat "-122.0", none⟩], 0, [(1678890625 : Int)], 0⟩
    rfl rfl rfl rfl rfl
  exact ⟨rfl, h.1 rfl, h.2.2.2.1 (by decide), h.2.2.2.2.2 (by decide)⟩

theorem processRow_step (off : Int) (st : ProcState) (r : Record) (st2 : ProcState)
    (h : processRow off st r = .ok st2) :
    (∀ x ∈ st.duplicate_timestamps, x ∈ st2.duplicate_timestamps) ∧
    (∀ s e, lookupKey r "Time" = .ok (some s) →
      convert_time_to_epoch off s = some e → e ∈ st2.duplicate_timestamps) ∧
    (∀ row ∈ st2.processed, row ∈ st.processed ∨ row.timestamp ∉ st.duplicate_timestamps) ∧
    ((∀ row ∈ st.processed, row.timestamp ∈ st.duplicate_timestamps) →
      ∀ row ∈ st2.processed, row.timestamp ∈ st2.duplicate_timestamps) := by
  unfold processRow at h
  split at h
  · exact absurd h (by simp)
  · exact absurd h (by simp)
  · rename_i s0 hT
    split at h
    · rename_i hE0
      simp only [Except.ok.injEq] at h
      subst h
      refine ⟨fun x hx => hx, ?_, fun row hr => Or.inl hr, fun hi => hi⟩
      intro s e hTs hEs
      rw [hT] at hTs
      simp only [Except.ok.injEq, Option.some.injEq] at hTs
      subst hTs
      rw [hE0] at hEs
      exact absurd hEs (by simp)
    · rename_i epoch hE0
      split at h
      · rename_i hdup
        split at h
        · exact absurd h (by simp)
        · simp only [Except.ok.injEq] at h
          subst h
          refine ⟨fun x hx => hx, ?_, fun row hr => Or.inl hr, fun hi => hi⟩
          intro s e hTs hEs
          rw [hT] at hTs
          simp only [Except.ok.injEq, Option.some.injEq] at hTs
          subst hTs
          rw [hE0] at hEs
          simp only [Option.some.injEq] at hEs
          subst hEs
          exact hdup
      · rename_i hnd
        split at h
        · exact absurd h (by simp)
        · simp only [Except.ok.injEq] at h
          subst h
          refine ⟨fun x hx => List.mem_cons_of_mem _ hx, ?_,
            fun row hr => Or.inl hr, ?_⟩
          · intro s e hTs hEs
            rw [hT] at hTs
            simp only [Except.ok.injEq, Option.some.injEq] at hTs
            subst hTs
            rw [hE0] at hEs
            simp only [Option.some.injEq] at hEs
            subst hEs
            exact List.mem_cons_self _ _
          · intro hi row hr
            exact List.mem_cons_of_mem _ (hi row hr)
        · rename_i q htry
          simp only [Except.ok.injEq] at h
          subst h
          refine ⟨fun x hx => List.mem_cons_of_mem _ hx, ?_, ?_, ?_⟩
          · intro s e hTs hEs
            rw [hT] at hTs
            simp only [Except.ok.injEq, Option.some.injEq] at hTs
            subst hTs
            rw [hE0] at hEs
            simp only [Option.some.injEq] at hEs
            subst hEs
            exact List.mem_cons_self _ _
          · intro row hr
            rcases List.mem_append.mp hr with hr2 | hr2
            · exact Or.inl hr2
            · simp only [List.mem_singleton] at hr2
              subst hr2
              exact Or.inr hnd
          · intro hi row hr
            rcases List.mem_append.mp hr with hr2 | hr2
            · exact List.mem_cons_of_mem _ (hi row hr2)
            · simp only [List.mem_singleton] at hr2
              subst hr2
              exact List.mem_cons_self _ _

theorem processAll_append (off : Int) :
    ∀ (a b : List Record) (st : ProcState),
      processAll off st (a ++ b) =
        (match processAll off st a with
         | .error e => .error e
         | .ok m => processAll off m b) := by
  intro a
  induction a with
  | nil => intro b st; rfl
  | cons r rs ih =>
    intro b st
    simp only [List.cons_append, processAll]
    cases hr : processRow off st r with
    | error e => rfl
    | ok st2 => exact ih b st2

theorem processAll_inv (off : Int) :
    ∀ (l : List Record) (st stF : ProcState),
      processAll off st l = .ok stF →
      (∀ x ∈ st.duplicate_timestamps, x ∈ stF.duplicate_timestamps) ∧
      (∀ r ∈ l, ∀ s e, lookupKey r "Time" = .ok (some s) →
        convert_time_to_epoch off s = some e → e ∈ stF.duplicate_timestamps) ∧
      (∀ row ∈ stF.processed, row ∈ st.processed ∨
        row.timestamp ∉ st.duplicate_timestamps) ∧
      ((∀ row ∈ st.processed, row.timestamp ∈ st.duplicate_timestamps) →
        ∀ row ∈ stF.processed, row.timestamp ∈ stF.duplicate_timestamps) := by
  intro l
  induction l with
  | nil =>
    intro st stF h
    simp only [processAll, Except.ok.injEq] at h
    subst h
    exact ⟨fun x hx => hx, by simp, fun row hr => Or.inl hr, fun hi => hi⟩
  | cons r rs ih =>
    intro st stF h
    simp only [processAll] at h
    cases hr : processRow off st r with
    | error e => rw [hr] at h; exact absurd h (by simp)
    | ok st2 =>
      rw [hr] at h
      obtain ⟨s1, s2, s3, s4⟩ := processRow_step off st r st2 hr
      obtain ⟨i1, i2, i3, i4⟩ := ih st2 stF h
      refine ⟨fun x hx => i1 x (s1 x hx), ?_, ?_, ?_⟩
      · intro r2 hr2 s e hTs hEs
        rcases List.mem_cons.mp hr2 with he2 | hm
        · subst he2
          exact i1 e (s2 s e hTs hEs)
        · exact i2 r2 hm s e hTs hEs
      · intro row hrow
        rcases i3 row hrow with h2 | h2
        · exact s3 row h2
        · right
          intro hc
          exact h2 (s1 row.timestamp hc)
      · intro hi
        exact i4 (s4 hi)

/-- C8: the duplicate-detection set holds the epoch of every earlier record
whose timestamp parsed (in particular of records that were then dropped for
a numeric conversion error), and consequently a completed run's output
never contains a row whose timestamp equals that of an earlier record
dropped for a numeric conversion error. -/
theorem c8_seen_set_invariant (off : Int) (data : List Record) (stF : ProcState)
    (hrun : process_csv_data off data = .ok stF) :
    (∀ pre rest st1, data = pre ++ rest →
      processAll off initState pre = .ok st1 →
      ∀ r ∈ pre, ∀ s e, lookupKey r "Time" = .ok (some s) →
        convert_time_to_epoch off s = some e → e ∈ st1.duplicate_timestamps) ∧
    (∀ pre r rest st1 s e, data = pre ++ r :: rest →
      processAll off initState pre = .ok st1 →
      lookupKey r "Time" = .ok (some s) →
      convert_time_to_epoch off s = some e →
      e ∉ st1.duplicate_timestamps →
      tryNumFields r = .ok none →
      ∀ row ∈ stF.processed, row.timestamp ≠ e) := by
  constructor
  · intro pre rest st1 hsplit hpre r hr s e hTs hEs
    exact (processAll_inv off pre initState st1 hpre).2.1 r hr s e hTs hEs
  · intro pre r rest st1 s e hsplit hpre hTs hEs hND htry
    have hrun2 : processAll off initState (pre ++ r :: rest) = .ok stF := by
      rw [← hsplit]; exact hrun
    rw [processAll_append off pre (r :: rest) initState, hpre] at hrun2
    simp only [processAll] at hrun2
    have hstep : processRow off st1 r = .ok { st1 with
        duplicate_timestamps := e :: st1.duplicate_timestamps,
        conversion_errors := st1.conversion_errors + 1 } := by
      simp [processRow, hTs, hEs, hND, htry]
    rw [hstep] at hrun2
    have hst1inv : ∀ row ∈ st1.processed, row.timestamp ∈ st1.duplicate_timestamps := by
      have h0 := (processAll_inv off pre initState st1 hpre).2.2.2
      exact h0 (by simp [initState])
    obtain ⟨_, _, i3, _⟩ := processAll_inv off rest _ stF hrun2
    intro row hrow he
    rcases i3 row hrow with h2 | h2
    · have hmem := hst1inv row h2
      rw [he] at hmem
      exact hND hmem
    · apply h2
      rw [he]
      exact List.mem_cons_self _ _

/-- C8 witness: a run where the first record is dropped for a numeric
conversion error and a later record with the same timestamp is treated as a
duplicate; the dropped record's epoch is in the final duplicate set. -/
theorem c8_seen_set_invariant_witness :
    process_csv_data 0 [badNumRow, dupTimeUtcRow] =
      .ok ⟨[], 1, [(1678890625 : Int)], 1⟩ ∧
    (1678890625 : Int) ∈
      (⟨[], 1, [(1678890625 : Int)], 1⟩ : ProcState).duplicate_timestamps := by
  refine ⟨rfl, ?_⟩
  have h := c8_seen_set_invariant 0 [badNumRow, dupTimeUtcRow]
    ⟨[], 1, [(1678890625 : Int)], 1⟩ rfl
  exact h.1 [badNumRow, dupTimeUtcRow] [] ⟨[], 1, [(1678890625 : Int)], 1⟩
    (by simp) rfl badNumRow (by simp) "15-Mar-2023 14:30:25" 1678890625 rfl rfl

/-! ## Lemmas about the time format round trip -/

theorem digitVal_digitChar : ∀ k, k < 10 → digitVal (digitChar k) = some k := by
  decide

theorem digitChar_not_ws : ∀ k, k < 10 → (digitChar k).isWhitespace = false := by
  decide

theorem monthLength_le (leap : Bool) (m : Nat) : monthLength leap m ≤ 31 := by
  unfold monthLength
  split_ifs <;> omega

theorem num2_pad2 (n : Nat) (h : n ≤ 99) (rest : List Char) :
    num2 (pad2L n ++ rest) = some (n, rest) := by
  have h1 := digitVal_digitChar (n / 10) (by omega)
  have h2 := digitVal_digitChar (n % 10) (by omega)
  simp only [pad2L, List.cons_append, List.nil_append, num2, h1, h2]
  have e : n / 10 * 10 + n % 10 = n := by omega
  rw [e]

theorem num4_pad4 (n : Nat) (h : n ≤ 9999) (rest : List Char) :
    num4 (pad4L n ++ rest) = some (n, rest) := by
  have h1 := digitVal_digitChar (n / 1000 % 10) (by omega)
  have h2 := digitVal_digitChar (n / 100 % 10) (by omega)
  have h3 := digitVal_digitChar (n / 10 % 10) (by omega)
  have h4 := digitVal_digitChar (n % 10) (by omega)
  simp only [pad4L, List.cons_append, List.nil_append, num4, h1, h2, h3, h4]
  have e : ((n / 1000 % 10 * 10 + n / 100 % 10) * 10 + n / 10 % 10) * 10 + n % 10 = n := by
    omega
  rw [e]

theorem month3_abbr (m : Nat) (h1 : 1 ≤ m) (h2 : m ≤ 12) (rest : List Char) :
    month3 (monthAbbrL m ++ rest) = some (m, rest) := by
  interval_cases m <;> rfl

theorem lit_cons_self (c : Char) (rest : List Char) :
    lit c (c :: rest) = some rest := by
  simp [lit]

theorem ws1_sp_pad2 (k : Nat) (hk : k ≤ 99) (rest : List Char) :
    ws1 (' ' :: (pad2L k ++ rest)) = some (pad2L k ++ rest) := by
  have h1 := digitChar_not_ws (k / 10) (by omega)
  simp [ws1, pad2L, List.dropWhile, h1]

theorem num2_pad2_nil (n : Nat) (h : n ≤ 99) :
    num2 (pad2L n) = some (n, []) := by
  have h2 := num2_pad2 n h []
  simpa using h2

theorem parseDT_render (d : DateTime)
    (hv : validDT d.year d.month d.day d.hour d.minute d.second = true) :
    parseDT (renderTimeL d) = some d := by
  obtain ⟨y, m, dd, hh, mi, ss⟩ := d
  have hv2 : validDT y m dd hh mi ss = true := hv
  simp only [validDT, Bool.and_eq_true, decide_eq_true_eq] at hv
  obtain ⟨⟨⟨⟨⟨⟨⟨⟨hy1, hy2⟩, hm1⟩, hm2⟩, hd1⟩, hd2⟩, hh23⟩, hmi⟩, hs⟩ := hv
  have hdd : dd ≤ 99 := le_trans hd2 (le_trans (monthLength_le _ _) (by omega))
  unfold parseDT
  simp only [renderTimeL]
  rw [num2_pad2 dd hdd]
  simp only [Option.bind]
  rw [lit_cons_self]
  simp only [Option.bind]
  rw [month3_abbr m hm1 hm2]
  simp only [Option.bind]
  rw [lit_cons_self]
  simp only [Option.bind]
  rw [num4_pad4 y (by omega)]
  simp only [Option.bind]
  rw [ws1_sp_pad2 hh (by omega)]
  simp only [Option.bind]
  rw [num2_pad2 hh (by omega)]
  simp only [Option.bind]
  rw [lit_cons_self]
  simp only [Option.bind]
  rw [num2_pad2 mi (by omega)]
  simp only [Option.bind]
  rw [lit_cons_self]
  simp only [Option.bind]
  rw [num2_pad2_nil ss (by omega)]
  simp only [Option.bind]
  simp [hv2]
theorem daysBeforeYear_le_succ (y : Nat) :
    daysBeforeYear y ≤ daysBeforeYear (y + 1) := by
  simp only [daysBeforeYear]
  omega

theorem daysBeforeYear_mono : Monotone daysBeforeYear :=
  monotone_nat_of_le_succ daysBeforeYear_le_succ

theorem isLeap_spec (y : Nat) :
    isLeap y = true ↔ (y % 4 = 0 ∧ (¬ y % 100 = 0 ∨ y % 400 = 0)) := by
  simp only [isLeap, decide_eq_true_eq]

set_option maxHeartbeats 2000000 in
theorem daysBeforeYear_succ (y : Nat) (hy : 1 ≤ y) :
    daysBeforeYear (y + 1) = daysBeforeYear y + daysInYear (isLeap y) := by
  have hiff := isLeap_spec y
  cases hl : isLeap y with
  | false =>
    rw [hl] at hiff
    have hs : ¬(y % 4 = 0 ∧ (¬ y % 100 = 0 ∨ y % 400 = 0)) := by
      intro hc
      simpa using hiff.mpr hc
    rw [show daysInYear false = 365 from rfl]
    simp only [daysBeforeYear]
    omega
  | true =>
    rw [hl] at hiff
    have hs := hiff.mp rfl
    rw [show daysInYear true = 366 from rfl]
    simp only [daysBeforeYear]
    omega

theorem dbmB_large (m : Nat) (h : 13 ≤ m) : daysBeforeMonthB m = 365 := by
  obtain ⟨n, rfl⟩ : ∃ n, m = n + 13 := ⟨m - 13, by omega⟩
  rfl

theorem dbmB_le_succ (m : Nat) : daysBeforeMonthB m ≤ daysBeforeMonthB (m + 1) := by
  rcases Nat.lt_or_ge m 13 with h | h
  · interval_cases m <;> decide
  · rw [dbmB_large m h, dbmB_large (m + 1) (by omega)]

theorem daysBeforeMonth_le_succ (leap : Bool) (m : Nat) :
    daysBeforeMonth leap m ≤ daysBeforeMonth leap (m + 1) := by
  have hb := dbmB_le_succ m
  unfold daysBeforeMonth
  cases leap
  · simpa using hb
  · by_cases h3 : 3 ≤ m <;> by_cases h3b : 3 ≤ m + 1 <;>
      simp [h3, h3b] <;> omega

theorem daysBeforeMonth_mono (leap : Bool) : Monotone (daysBeforeMonth leap) :=
  monotone_nat_of_le_succ (daysBeforeMonth_le_succ leap)

theorem daysBeforeMonth_succ (leap : Bool) (m : Nat) (h1 : 1 ≤ m) (h2 : m ≤ 12) :
    daysBeforeMonth leap (m + 1) = daysBeforeMonth leap m + monthLength leap m := by
  interval_cases m <;> cases leap <;> decide

theorem dbm_len_le (leap : Bool) (m : Nat) (h1 : 1 ≤ m) (h2 : m ≤ 12) :
    daysBeforeMonth leap m + monthLength leap m ≤ daysInYear leap := by
  interval_cases m <;> cases leap <;> decide

theorem searchCum_spec (g : Nat → Nat) (n y : Nat) :
    ∀ (fuel k : Nat), (∀ a b, k ≤ a → a ≤ b → g a ≤ g b) →
      k ≤ y → y ≤ k + fuel → g y ≤ n → n < g (y + 1) →
      searchCum g fuel k n = y := by
  intro fuel
  induction fuel with
  | zero =>
    intro k hmono hk hyk hgy hgy1
    have he : y = k := by omega
    simp [searchCum, he]
  | succ f ih =>
    intro k hmono hk hyk hgy hgy1
    unfold searchCum
    by_cases hcond : g (k + 1) ≤ n
    · rw [if_pos hcond]
      have hky : k + 1 ≤ y := by
        rcases Nat.eq_or_lt_of_le hk with he | hl
        · exfalso
          rw [← he] at hgy1
          omega
        · omega
      exact ih (k + 1) (fun a b ha hab => hmono a b (by omega) hab) hky (by omega)
        hgy hgy1
    · rw [if_neg hcond]
      by_contra hne
      have hky : k + 1 ≤ y := by
        rcases Nat.eq_or_lt_of_le hk with he | hl
        · exact absurd he hne
        · omega
      exact hcond (le_trans (hmono (k + 1) y (by omega) hky) hgy)

theorem yearFromDays_eq (y n : Nat) (h1 : 1 ≤ y) (h2 : y ≤ 9999)
    (hlo : daysBeforeYear y ≤ n) (hhi : n < daysBeforeYear (y + 1)) :
    yearFromDays n = y :=
  searchCum_spec daysBeforeYear n y 9998 1
    (fun a b _ hab => daysBeforeYear_mono hab) h1 (by omega) hlo hhi

theorem monthFromDoy_eq (leap : Bool) (m doy : Nat) (h1 : 1 ≤ m) (h2 : m ≤ 12)
    (hlo : daysBeforeMonth leap m ≤ doy) (hhi : doy < daysBeforeMonth leap (m + 1)) :
    monthFromDoy leap doy = m :=
  searchCum_spec (daysBeforeMonth leap) doy m 11 1
    (fun a b _ hab => daysBeforeMonth_mono leap hab) h1 (by omega) hlo hhi

theorem civilFromSecs_toSecs (d : DateTime)
    (hv : validDT d.year d.month d.day d.hour d.minute d.second = true) :
    civilFromSecs (toSecs d) = d := by
  obtain ⟨y, m, dd, hh, mi, ss⟩ := d
  simp only [validDT, Bool.and_eq_true, decide_eq_true_eq] at hv
  obtain ⟨⟨⟨⟨⟨⟨⟨⟨hy1, hy2⟩, hm1⟩, hm2⟩, hd1⟩, hd2⟩, hh23⟩, hmi⟩, hs⟩ := hv
  have hdbm_succ := daysBeforeMonth_succ (isLeap y) m hm1 hm2
  have hlen := dbm_len_le (isLeap y) m hm1 hm2
  have hyd_succ := daysBeforeYear_succ y hy1
  have htoSecs : toSecs ⟨y, m, dd, hh, mi, ss⟩ =
      (daysBeforeYear y + daysBeforeMonth (isLeap y) m + (dd - 1)) * 86400 +
        (hh * 3600 + mi * 60 + ss) := rfl
  have hdays : toSecs ⟨y, m, dd, hh, mi, ss⟩ / 86400 =
      daysBeforeYear y + daysBeforeMonth (isLeap y) m + (dd - 1) := by
    rw [htoSecs]; omega
  have hrem : toSecs ⟨y, m, dd, hh, mi, ss⟩ % 86400 = hh * 3600 + mi * 60 + ss := by
    rw [htoSecs]; omega
  have hOhi : daysBeforeYear y + daysBeforeMonth (isLeap y) m + (dd - 1) <
      daysBeforeYear (y + 1) := by
    rw [hyd_succ]; omega
  have hyear : yearFromDays
      (daysBeforeYear y + daysBeforeMonth (isLeap y) m + (dd - 1)) = y :=
    yearFromDays_eq y _ hy1 hy2 (by omega) hOhi
  have hdoy : daysBeforeYear y + daysBeforeMonth (isLeap y) m + (dd - 1) -
      daysBeforeYear y = daysBeforeMonth (isLeap y) m + (dd - 1) := by omega
  have hdoyhi : daysBeforeMonth (isLeap y) m + (dd - 1) <
      daysBeforeMonth (isLeap y) (m + 1) := by
    rw [hdbm_succ]; omega
  have hmonth : monthFromDoy (isLeap y)
      (daysBeforeMonth (isLeap y) m + (dd - 1)) = m :=
    monthFromDoy_eq (isLeap y) m _ hm1 hm2 (by omega) hdoyhi
  simp only [civilFromSecs]
  rw [hdays, hrem, hyear, hdoy, hmonth]
  simp only [DateTime.mk.injEq]
  exact ⟨trivial, trivial, by omega, by omega, by omega, by omega⟩

theorem toSecs_lt (d : DateTime)
    (hv : validDT d.year d.month d.day d.hour d.minute d.second = true) :
    toSecs d < daysBeforeYear 10000 * 86400 := by
  obtain ⟨y, m, dd, hh, mi, ss⟩ := d
  simp only [validDT, Bool.and_eq_true, decide_eq_true_eq] at hv
  obtain ⟨⟨⟨⟨⟨⟨⟨⟨hy1, hy2⟩, hm1⟩, hm2⟩, hd1⟩, hd2⟩, hh23⟩, hmi⟩, hs⟩ := hv
  have hlen := dbm_len_le (isLeap y) m hm1 hm2
  have hyd_succ := daysBeforeYear_succ y hy1
  have htoSecs : toSecs ⟨y, m, dd, hh, mi, ss⟩ =
      (daysBeforeYear y + daysBeforeMonth (isLeap y) m + (dd - 1)) * 86400 +
        (hh * 3600 + mi * 60 + ss) := rfl
  have hOhi : daysBeforeYear y + daysBeforeMonth (isLeap y) m + (dd - 1) <
      daysBeforeYear (y + 1) := by
    rw [hyd_succ]; omega
  have hmax : daysBeforeYear (y + 1) ≤ daysBeforeYear 10000 :=
    daysBeforeYear_mono (by omega)
  rw [htoSecs]
  omega

theorem fromtimestampLocal_toEpochLocal (off : Int) (d : DateTime)
    (hv : validDT d.year d.month d.day d.hour d.minute d.second = true) :
    fromtimestampLocal off (toEpochLocal off d) = some d := by
  have hlt := toSecs_lt d hv
  have ht : toEpochLocal off d + off + (epochOrdinal : Int) * 86400 =
      (toSecs d : Int) := by
    unfold toEpochLocal
    ring
  simp only [fromtimestampLocal, ht]
  rw [if_pos]
  · rw [show ((toSecs d : Int)).toNat = toSecs d from rfl]
    rw [civilFromSecs_toSecs d hv]
  · constructor
    · exact Int.ofNat_nonneg _
    · exact_mod_cast hlt

theorem formatEpochLocal_toEpochLocal (off : Int) (d : DateTime)
    (hv : validDT d.year d.month d.day d.hour d.minute d.second = true) :
    formatEpochLocal off (toEpochLocal off d) = some (renderTime d) := by
  unfold formatEpochLocal
  rw [fromtimestampLocal_toEpochLocal off d hv]
  rfl

theorem convert_time_to_epoch_render (off : Int) (d : DateTime)
    (hv : validDT d.year d.month d.day d.hour d.minute d.second = true) :
    convert_time_to_epoch off (renderTime d) = some (toEpochLocal off d) := by
  unfold convert_time_to_epoch renderTime
  rw [show (String.mk (renderTimeL d)).toList = renderTimeL d from rfl]
  rw [parseDT_render d hv]
  rfl

/-- C3: for every timestamp string in the fixed canonical format
`DD-MMM-YYYY HH:MM:SS` (a valid date with a four-digit year not starting
with zero), parsing it to an integer epoch under the fixed-offset local
zone and formatting that epoch back with the same format and zone yields
the original string. -/
theorem c3_parse_format_roundtrip (off : Int) (d : DateTime)
    (hv : validDT d.year d.month d.day d.hour d.minute d.second = true)
    (_hy : 1000 ≤ d.year) :
    (convert_time_to_epoch off (renderTime d)).bind (formatEpochLocal off) =
      some (renderTime d) := by
  rw [convert_time_to_epoch_render off d hv]
  simp only [Option.bind]
  exact formatEpochLocal_toEpochLocal off d hv

/-- C3 witness: the round trip at `15-Mar-2023 14:30:25` with UTC as the
local zone. -/
theorem c3_parse_format_roundtrip_witness :
    (validDT 2023 3 15 14 30 25 = true ∧ 1000 ≤ 2023) ∧
    (convert_time_to_epoch 0
        (renderTime ⟨2023, 3, 15, 14, 30, 25⟩)).bind (formatEpochLocal 0) =
      some (renderTime ⟨2023, 3, 15, 14, 30, 25⟩) :=
  ⟨⟨by decide, by decide⟩,
   c3_parse_format_roundtrip 0 ⟨2023, 3, 15, 14, 30, 25⟩ (by decide) (by decide)⟩
